import Mathlib

/-!
Verification of the lifekline core (src/services/geminiService.ts):
stem-polarity and Da Yun direction resolution, pre-network API
configuration validation, the age-band table embedded in the generation
prompt, and validation of the JSON response of the external generator.

JS strings are modelled as lists of Unicode scalar characters; JS string
operations (trim, charAt, includes, the regex tests used by the source)
are translated to explicit list functions below.
-/

namespace Lifekline

/-- JS strings, modelled as lists of characters. -/
abbrev Str := List Char

/-- Character list of a Lean string literal. -/
def strL (s : String) : Str := s.data

/-- The WhiteSpace and LineTerminator character set of ECMA-262, used by
JS String.prototype.trim (and by parseInt for leading whitespace):
TAB, LF, VT, FF, CR, SP, NBSP, OGHAM SPACE, the U+2000..U+200A spaces,
LS, PS, NARROW NBSP, MMSP, IDEOGRAPHIC SPACE and ZWNBSP. -/
def isJsWhite (c : Char) : Bool :=
  c.toNat ∈ [0x9, 0xA, 0xB, 0xC, 0xD, 0x20, 0xA0, 0x1680,
    0x2000, 0x2001, 0x2002, 0x2003, 0x2004, 0x2005, 0x2006, 0x2007,
    0x2008, 0x2009, 0x200A, 0x2028, 0x2029, 0x202F, 0x205F, 0x3000, 0xFEFF]

/-- Leading-whitespace removal, as in JS trimStart. -/
def trimLeft (s : Str) : Str := s.dropWhile isJsWhite

/-- Trailing-whitespace removal, as in JS trimEnd. -/
def trimRight (s : Str) : Str := (s.reverse.dropWhile isJsWhite).reverse

/-- JS String.prototype.trim: removes leading and trailing ECMA-262
whitespace (which includes non-ASCII characters such as U+3000). -/
def jsTrim (s : Str) : Str := trimRight (trimLeft s)

/-- Gender attribute, from src/types (enum Gender with MALE and FEMALE). -/
inductive Gender where
  | MALE
  | FEMALE
deriving DecidableEq, Repr

/-- Stem polarity. -/
inductive Polarity where
  | YANG
  | YIN
deriving DecidableEq, Repr

/-- Decade-cycle traversal direction. -/
inductive Direction where
  | FORWARD
  | BACKWARD
deriving DecidableEq, Repr

/-- The 5-member Yang stem table of geminiService.ts line 9. -/
def yangStems : List Char := ['甲', '丙', '戊', '庚', '壬']

/-- The 5-member Yin stem table of geminiService.ts line 10. -/
def yinStems : List Char := ['乙', '丁', '己', '辛', '癸']

/-- getStemPolarity from geminiService.ts lines 6-15: an empty pillar
defaults to YANG; otherwise the pillar is trimmed and its first character
looked up in the Yang then the Yin stem table, falling back to YANG.
JS charAt(0) on an empty trimmed string yields the empty string, which is
in neither table; that case is the head? = none branch here. -/
def getStemPolarity (pillar : Str) : Polarity :=
  if pillar = [] then .YANG
  else
    match (jsTrim pillar).head? with
    | some c =>
        if yangStems.contains c then .YANG
        else if yinStems.contains c then .YIN
        else .YANG
    | none => .YANG

/-- The direction computation of geminiService.ts lines 44-53: a male
subject runs forward exactly when the year-stem polarity is YANG, a
female subject exactly when it is YIN. -/
def resolveDirection (pillar : Str) (g : Gender) : Direction :=
  let yearStemPolarity := getStemPolarity pillar
  let isForward :=
    match g with
    | .MALE => yearStemPolarity == Polarity.YANG
    | .FEMALE => yearStemPolarity == Polarity.YIN
  if isForward then .FORWARD else .BACKWARD

/-- Reading of the polarity decision from the head of the trimmed pillar. -/
def polarityOfHead (o : Option Char) : Polarity :=
  match o with
  | some c =>
      if yangStems.contains c then .YANG
      else if yinStems.contains c then .YIN
      else .YANG
  | none => .YANG

theorem jsTrim_nil : jsTrim [] = [] := rfl

theorem getStemPolarity_eq_polarityOfHead (s : Str) :
    getStemPolarity s = polarityOfHead ((jsTrim s).head?) := by
  unfold getStemPolarity polarityOfHead
  by_cases h : s = []
  · subst h; simp [jsTrim_nil]
  · simp [h]

theorem dropWhile_white_append (w l : Str) (hw : ∀ c ∈ w, isJsWhite c = true) :
    (w ++ l).dropWhile isJsWhite = l.dropWhile isJsWhite := by
  induction w with
  | nil => simp
  | cons c w ih =>
      simp only [List.cons_append, List.dropWhile_cons]
      rw [hw c (List.mem_cons_self c w)]
      simp only [if_pos rfl]
      exact ih fun x hx => hw x (List.mem_cons_of_mem c hx)

theorem dropWhile_append_of_ne_nil (p : Char → Bool) (l t : Str)
    (h : l.dropWhile p ≠ []) :
    (l ++ t).dropWhile p = l.dropWhile p ++ t := by
  induction l with
  | nil => simp at h
  | cons c l ih =>
      simp only [List.cons_append, List.dropWhile_cons] at *
      by_cases hc : p c
      · simp only [hc, if_pos rfl] at h ⊢
        exact ih h
      · simp [hc]

theorem trimLeft_white_append (w l : Str) (hw : ∀ c ∈ w, isJsWhite c = true) :
    trimLeft (w ++ l) = trimLeft l :=
  dropWhile_white_append w l hw

theorem trimRight_append_white (l w : Str) (hw : ∀ c ∈ w, isJsWhite c = true) :
    trimRight (l ++ w) = trimRight l := by
  unfold trimRight
  rw [List.reverse_append,
    dropWhile_white_append w.reverse l.reverse
      (fun c hc => hw c (List.mem_reverse.mp hc))]

/-- Surrounding whitespace does not change the trimmed string. -/
theorem jsTrim_white_append (w1 s w2 : Str)
    (h1 : ∀ c ∈ w1, isJsWhite c = true) (h2 : ∀ c ∈ w2, isJsWhite c = true) :
    jsTrim (w1 ++ s ++ w2) = jsTrim s := by
  unfold jsTrim
  rw [List.append_assoc, trimLeft_white_append w1 (s ++ w2) h1]
  by_cases h : trimLeft s = []
  · have hs : ∀ c ∈ s, isJsWhite c = true := List.dropWhile_eq_nil_iff.mp h
    have : trimLeft (s ++ w2) = [] := by
      unfold trimLeft
      rw [dropWhile_white_append s w2 hs]
      exact List.dropWhile_eq_nil_iff.mpr h2
    rw [this, h]
  · have : trimLeft (s ++ w2) = trimLeft s ++ w2 :=
      dropWhile_append_of_ne_nil isJsWhite s w2 h
    rw [this, trimRight_append_white (trimLeft s) w2 h2]

/-- C1. The resolved decade-cycle direction is FORWARD exactly when the
subject is male with a Yang year stem or female with a Yin year stem,
where the polarity comes from fixed 5-member Yang and
Yin stem tables of getStemPolarity; in the other cases it is BACKWARD. -/
theorem direction_forward_iff (p : Str) (g : Gender) :
    (resolveDirection p g = .FORWARD ↔
      ((g = .MALE ∧ getStemPolarity p = .YANG) ∨
       (g = .FEMALE ∧ getStemPolarity p = .YIN))) ∧
    (resolveDirection p g = .BACKWARD ↔
      ¬ ((g = .MALE ∧ getStemPolarity p = .YANG) ∨
         (g = .FEMALE ∧ getStemPolarity p = .YIN))) := by
  cases g <;> cases h : getStemPolarity p <;>
    simp [resolveDirection, h]

/-- C6. A pillar whose trimmed first character (the one the resolver
extracts) lies in neither stem table — including the empty pillar, where
no character can be extracted — resolves to YANG polarity, and the empty
pillar resolves to the same direction as any Yang-stem pillar. The
resolver is total: the fallback is a value, not an error. -/
theorem unknown_stem_defaults_yang (s p : Str) (g : Gender)
    (hs : ∀ c, (jsTrim s).head? = some c →
      yangStems.contains c = false ∧ yinStems.contains c = false)
    (hp : ∃ c, (jsTrim p).head? = some c ∧ yangStems.contains c = true) :
    getStemPolarity s = .YANG ∧ resolveDirection [] g = resolveDirection p g := by
  constructor
  · rw [getStemPolarity_eq_polarityOfHead]
    cases h : (jsTrim s).head? with
    | none => rfl
    | some c =>
        have := hs c h
        simp only [polarityOfHead, this.1, this.2]
        simp
  · obtain ⟨c, hc, hyang⟩ := hp
    have hpol : getStemPolarity p = .YANG := by
      rw [getStemPolarity_eq_polarityOfHead, hc]
      simp only [polarityOfHead, hyang]
      simp
    have hempty : getStemPolarity ([] : Str) = .YANG := rfl
    unfold resolveDirection
    rw [hpol, hempty]

theorem unknown_stem_defaults_yang_witness :
    (∀ c, (jsTrim (strL "X9")).head? = some c →
      yangStems.contains c = false ∧ yinStems.contains c = false) ∧
    (∃ c, (jsTrim (strL "甲子")).head? = some c ∧ yangStems.contains c = true) ∧
    getStemPolarity (strL "X9") = .YANG ∧
    resolveDirection [] .MALE = resolveDirection (strL "甲子") .MALE := by
  refine ⟨by decide, by decide, ?_⟩
  exact unknown_stem_defaults_yang (strL "X9") (strL "甲子") .MALE
    (by decide) (by decide)

/-- C7. The resolved direction is invariant under surrounding whitespace
in the pillar string: the pillar is trimmed before its first character is
extracted for the polarity lookup. -/
theorem direction_trim_invariant (s w1 w2 : Str) (g : Gender)
    (h1 : ∀ c ∈ w1, isJsWhite c = true) (h2 : ∀ c ∈ w2, isJsWhite c = true) :
    resolveDirection (w1 ++ s ++ w2) g = resolveDirection s g := by
  unfold resolveDirection
  rw [getStemPolarity_eq_polarityOfHead, getStemPolarity_eq_polarityOfHead s,
    jsTrim_white_append w1 s w2 h1 h2]

theorem direction_trim_invariant_witness :
    (∀ c ∈ [' ', '\t'], isJsWhite c = true) ∧
    (∀ c ∈ ['\n'], isJsWhite c = true) ∧
    resolveDirection ([' ', '\t'] ++ strL "乙丑" ++ ['\n']) .FEMALE =
      resolveDirection (strL "乙丑") .FEMALE := by
  refine ⟨by decide, by decide, ?_⟩
  exact direction_trim_invariant (strL "乙丑") [' ', '\t'] ['\n'] .FEMALE
    (by decide) (by decide)

/-- The error kinds raised by geminiService.ts lines 26-38 before the
network call. The source raises generic Error values with Chinese
user-facing messages; this enumeration names the three throw sites. -/
inductive ConfigError where
  | missingKey
  | nonAsciiKey
  | missingUrl
deriving DecidableEq, Repr

/-- The cleaned configuration values a request would be built from. -/
structure ApiConfig where
  cleanApiKey : Str
  cleanBaseUrl : Str
  targetModel : Str
deriving DecidableEq, Repr

/-- replace(/\x7b backslash-slash plus dollar \x7d/, "") of line 23:
removal of every trailing slash. -/
def stripTrailingSlashes (s : Str) : Str :=
  (s.reverse.dropWhile (fun c => c == '/')).reverse

/-- The default model identifier of geminiService.ts line 24. -/
def defaultModel : Str := strL "[O]gemini-3-pro-preview"

/-- The pre-network configuration phase of geminiService.ts lines 19-38:
clean the key and base URL by trimming (the URL also loses trailing
slashes), substitute the default model when the model name is blank, then
raise, in order, on an empty cleaned key, on a non-ASCII character in the
cleaned key (the regex test of line 32), and on an empty cleaned URL.
Only when no error is raised is a request built and sent. -/
def validateConfig (apiKey apiBaseUrl modelName : Str) : Except ConfigError ApiConfig :=
  let cleanApiKey := if apiKey = [] then [] else jsTrim apiKey
  let cleanBaseUrl := if apiBaseUrl = [] then [] else stripTrailingSlashes (jsTrim apiBaseUrl)
  let targetModel :=
    if modelName ≠ [] ∧ jsTrim modelName ≠ [] then jsTrim modelName else defaultModel
  if cleanApiKey = [] then .error .missingKey
  else if cleanApiKey.any (fun c => 127 < c.toNat) then .error .nonAsciiKey
  else if cleanBaseUrl = [] then .error .missingUrl
  else .ok ⟨cleanApiKey, cleanBaseUrl, targetModel⟩

/-- The submit-time check of the form component (src/unnamed/part_000
lines 42-55): submission reaches the service only when the model name,
base URL and key are all non-blank after trimming. -/
def formAccepts (modelName apiBaseUrl apiKey : Str) : Bool :=
  !(jsTrim modelName).isEmpty && !(jsTrim apiBaseUrl).isEmpty && !(jsTrim apiKey).isEmpty

theorem jsTrim_of_ne_nil (s : Str) :
    (if s = [] then [] else jsTrim s) = jsTrim s := by
  by_cases h : s = [] <;> simp [h, jsTrim_nil]

theorem stripTrailingSlashes_nil : stripTrailingSlashes [] = [] := rfl

theorem cleanUrl_eq (s : Str) :
    (if s = [] then [] else stripTrailingSlashes (jsTrim s)) =
      stripTrailingSlashes (jsTrim s) := by
  by_cases h : s = [] <;> simp [h, jsTrim_nil, stripTrailingSlashes_nil]

/-- C2 counterexample. With a blank model name but a well-formed key and
URL, the service raises no error: it substitutes the default model
identifier and proceeds to send the request. -/
theorem blank_model_no_error :
    validateConfig (strL "k") (strL "http://u") [] =
      .ok ⟨strL "k", strL "http://u", defaultModel⟩ := by
  rfl

/-- C2 amended. The credential and the base URL are each validated to be
non-empty after trimming, and blankness of either one causes a local
error before any request is built; a blank model name, however, is not an
error in the service — the default model identifier is substituted and
the request proceeds — and only the form layer rejects it, by refusing to
submit. -/
theorem config_validation (apiKey apiBaseUrl modelName : Str) :
    (jsTrim apiKey = [] → ∃ e, validateConfig apiKey apiBaseUrl modelName = .error e) ∧
    (jsTrim apiBaseUrl = [] → ∃ e, validateConfig apiKey apiBaseUrl modelName = .error e) ∧
    (jsTrim modelName = [] →
      (∀ cfg, validateConfig apiKey apiBaseUrl modelName = .ok cfg →
        cfg.targetModel = defaultModel) ∧
      formAccepts modelName apiBaseUrl apiKey = false) := by
  refine ⟨?_, ?_, ?_⟩
  · intro hk
    unfold validateConfig
    rw [jsTrim_of_ne_nil, hk]
    exact ⟨.missingKey, rfl⟩
  · intro hu
    unfold validateConfig
    rw [cleanUrl_eq apiBaseUrl, hu, stripTrailingSlashes_nil]
    by_cases hk : (if apiKey = [] then [] else jsTrim apiKey) = []
    · rw [hk]; exact ⟨.missingKey, rfl⟩
    · rw [if_neg hk]
      by_cases ha : (if apiKey = [] then [] else jsTrim apiKey).any (fun c => 127 < c.toNat)
      · rw [if_pos ha]; exact ⟨.nonAsciiKey, rfl⟩
      · rw [if_neg ha]
        exact ⟨.missingUrl, by rw [if_pos rfl]⟩
  · intro hm
    constructor
    · intro cfg hcfg
      unfold validateConfig at hcfg
      have hmod : ¬ (modelName ≠ [] ∧ jsTrim modelName ≠ []) := by
        intro ⟨_, h2⟩; exact h2 hm
      rw [if_neg hmod] at hcfg
      by_cases hk : (if apiKey = [] then [] else jsTrim apiKey) = []
      · rw [hk] at hcfg; simp at hcfg
      · rw [if_neg hk] at hcfg
        by_cases ha : (if apiKey = [] then [] else jsTrim apiKey).any (fun c => 127 < c.toNat)
        · rw [if_pos ha] at hcfg; simp at hcfg
        · rw [if_neg ha] at hcfg
          by_cases hu : (if apiBaseUrl = [] then []
              else stripTrailingSlashes (jsTrim apiBaseUrl)) = []
          · rw [hu] at hcfg; simp at hcfg
          · rw [if_neg hu] at hcfg
            simp only [Except.ok.injEq] at hcfg
            rw [← hcfg]
    · unfold formAccepts
      rw [hm]
      simp

theorem config_validation_witness :
    (jsTrim [] = [] ∧ (∃ e, validateConfig [] (strL "http://u") (strL "m") = .error e)) ∧
    (jsTrim (strL " ") = [] ∧
      (∃ e, validateConfig (strL "k") (strL " ") (strL "m") = .error e)) ∧
    (jsTrim [] = [] ∧
      (∀ cfg, validateConfig (strL "k") (strL "http://u") [] = .ok cfg →
        cfg.targetModel = defaultModel) ∧
      formAccepts [] (strL "http://u") (strL "k") = false) :=
  ⟨⟨by decide, (config_validation [] (strL "http://u") (strL "m")).1 (by decide)⟩,
   ⟨by decide, (config_validation (strL "k") (strL " ") (strL "m")).2.1 (by decide)⟩,
   ⟨by decide, (config_validation (strL "k") (strL "http://u") []).2.2 (by decide)⟩⟩

/-- C5 counterexample. The credential consisting of "sk-abc" followed by
U+3000 (IDEOGRAPHIC SPACE, a non-ASCII character) raises no error: JS
trim removes U+3000 before the non-ASCII test of line 32 runs, so the
request is sent, carrying the trimmed credential. -/
theorem nonascii_whitespace_key_accepted :
    127 < (Char.ofNat 0x3000).toNat ∧
    validateConfig (strL "sk-abc" ++ [Char.ofNat 0x3000]) (strL "http://u") (strL "m") =
      .ok ⟨strL "sk-abc", strL "http://u", strL "m"⟩ := by
  exact ⟨by decide, by rfl⟩

/-- C5 amended. Whenever the TRIMMED credential still contains a
character outside the ASCII 0-127 range, the service raises the
non-ASCII configuration error before any request is built, and no
request carrying the credential is produced; non-ASCII characters that
are ECMA-262 whitespace at the edges of the credential are removed by
trimming first and do not trigger the error. -/
theorem nonascii_key_rejected (apiKey apiBaseUrl modelName : Str)
    (h : ∃ c ∈ jsTrim apiKey, 127 < c.toNat) :
    validateConfig apiKey apiBaseUrl modelName = .error .nonAsciiKey := by
  obtain ⟨c, hc, hgt⟩ := h
  have hne : jsTrim apiKey ≠ [] := by
    intro habs; rw [habs] at hc; exact absurd hc (List.not_mem_nil c)
  unfold validateConfig
  rw [jsTrim_of_ne_nil, if_neg hne]
  have hany : (jsTrim apiKey).any (fun c => 127 < c.toNat) = true := by
    rw [List.any_eq_true]
    exact ⟨c, hc, by simpa using hgt⟩
  rw [if_pos hany]

theorem nonascii_key_rejected_witness :
    (∃ c ∈ jsTrim (strL "sk-测试123"), 127 < c.toNat) ∧
    validateConfig (strL "sk-测试123") (strL "http://u") (strL "m") =
      .error .nonAsciiKey :=
  ⟨by decide,
   nonascii_key_rejected (strL "sk-测试123") (strL "http://u") (strL "m") (by decide)⟩

/-- Decimal digit value, for JS parseInt with radix 10. -/
def decVal (c : Char) : Option Nat :=
  if '0' ≤ c ∧ c ≤ '9' then some (c.toNat - '0'.toNat) else none

/-- Hexadecimal digit value, for JS parseInt after a 0x prefix. -/
def hexVal (c : Char) : Option Nat :=
  if '0' ≤ c ∧ c ≤ '9' then some (c.toNat - '0'.toNat)
  else if 'a' ≤ c ∧ c ≤ 'f' then some (c.toNat - 'a'.toNat + 10)
  else if 'A' ≤ c ∧ c ≤ 'F' then some (c.toNat - 'A'.toNat + 10)
  else none

/-- Value of the longest digit run at the front of the string; none when
no digit leads, matching parseInt returning NaN. -/
def digitsVal (f : Char → Option Nat) (base : Nat) (s : Str) : Option Nat :=
  let ds := s.takeWhile (fun c => (f c).isSome)
  if ds.isEmpty then none
  else some (ds.foldl (fun a c => a * base + (f c).getD 0) 0)

/-- JS parseInt with no radix argument, as used on line 41: strip leading
ECMA-262 whitespace, read an optional sign, detect a 0x/0X prefix (hex),
then read the longest run of digits of the radix, ignoring any trailing
characters; none models NaN (no digits found). -/
def parseIntJS (s : Str) : Option Int :=
  let t := s.dropWhile isJsWhite
  let signed : Bool × Str :=
    match t with
    | '-' :: r => (true, r)
    | '+' :: r => (false, r)
    | _ => (false, t)
  let based : (Char → Option Nat) × Nat × Str :=
    match signed.2 with
    | '0' :: 'x' :: r => (hexVal, 16, r)
    | '0' :: 'X' :: r => (hexVal, 16, r)
    | r => (decVal, 10, r)
  (digitsVal based.1 based.2.1 based.2.2).map
    (fun n => if signed.1 then -(n : Int) else (n : Int))

/-- Line 41 of geminiService.ts: `parseInt(input.startAge) || 1`. NaN and
0 are falsy, so an unparseable or zero start age becomes 1; any other
parsed integer (including a negative one) is kept. -/
def startAgeOf (startAge : Str) : Int :=
  match parseIntJS startAge with
  | none => 1
  | some n => if n = 0 then 1 else n

/-- The age-band bounds interpolated as literal integers into the prompt
template at lines 85-88 of geminiService.ts, as functions of
startAgeInt: the pre-cycle band "Age 1 到 startAgeInt - 1" and the three
decade bands spelled out literally ("Age s 到 s+9", "Age s+10 到 s+19",
"Age s+20 到 s+29"); the template then continues "...以此类推直到 100 岁"
(and so on until age 100) without further literal bounds. -/
def promptBands (s : Int) : List (Int × Int) :=
  [(1, s - 1), (s, s + 9), (s + 10, s + 19), (s + 20, s + 29)]

/-- C8 counterexample. The generation request does not embed the fourth
decade band as literal integers: the band list interpolated into the
prompt stops after decade 3 (for startAge 3 there is no literal 33-42
entry), later decades being delegated to the oracle by an "and so on
until age 100" instruction. -/
theorem no_literal_band_beyond_three :
    (promptBands 3).get? 4 = none ∧ (promptBands 3).length = 4 := by
  decide

/-- C8 amended. Each band whose bounds the request embeds as literal
integers follows the claimed arithmetic: the pre-cycle band covers ages
1 to startAge - 1 and the k-th decade band, for the literally embedded
k = 1, 2, 3, runs from startAge + 10*(k-1) to startAge + 10*(k-1) + 9;
later decades are covered by an "and so on until age 100" instruction
instead of literal integers. In particular, for the start-age string "3"
the second decade band spans ages 13-22. -/
theorem prompt_band_bounds (s : Int) (k : Nat) (h1 : 1 ≤ k) (h2 : k ≤ 3) :
    (promptBands s).get? k = some (s + 10 * ((k : Int) - 1), s + 10 * ((k : Int) - 1) + 9) ∧
    (promptBands s).get? 0 = some (1, s - 1) ∧
    (promptBands (startAgeOf (strL "3"))).get? 2 = some (13, 22) := by
  refine ⟨?_, rfl, by decide⟩
  interval_cases k
  · simp [promptBands]
  · simp only [promptBands, List.get?]
    norm_num
    omega
  · simp only [promptBands, List.get?]
    norm_num
    omega

theorem prompt_band_bounds_witness :
    (1 ≤ 2 ∧ 2 ≤ 3) ∧
    (promptBands 3).get? 2 = some (3 + 10 * ((2 : Int) - 1), 3 + 10 * ((2 : Int) - 1) + 9) ∧
    (promptBands 3).get? 0 = some (1, 2) := by
  refine ⟨⟨by decide, by decide⟩, ?_⟩
  have h := prompt_band_bounds 3 2 (by decide) (by decide)
  exact ⟨h.1, by simpa using h.2.1⟩

/-- C10. When the start-age string does not parse to a non-zero integer
(it is empty, non-numeric, or "0"), the request is built as if the start
age were 1: the substituted value is 1, every literal band bound of the
prompt is computed from 1, and no error is raised (the substitution is
total). -/
theorem bad_startAge_becomes_one (s : Str)
    (h : parseIntJS s = none ∨ parseIntJS s = some 0) :
    startAgeOf s = 1 ∧ promptBands (startAgeOf s) = promptBands 1 := by
  have h1 : startAgeOf s = 1 := by
    unfold startAgeOf
    rcases h with h | h <;> simp [h]
  exact ⟨h1, by rw [h1]⟩

theorem bad_startAge_becomes_one_witness :
    (parseIntJS (strL "0") = none ∨ parseIntJS (strL "0") = some 0) ∧
    startAgeOf (strL "0") = 1 ∧
    promptBands (startAgeOf (strL "0")) = promptBands 1 :=
  ⟨Or.inr (by decide),
   bad_startAge_becomes_one (strL "0") (Or.inr (by decide))⟩

/-- JSON values, as produced by JSON.parse of the message
content returned by the oracle, extended with undef for the result of accessing an absent
property. Numbers are modelled as integers (the fields the validator
inspects are integer scores). -/
inductive Json where
  | undefined
  | null
  | bool (b : Bool)
  | num (n : Int)
  | str (s : Str)
  | arr (elems : List Json)
  | obj (fields : List (Str × Json))

/-- JS falsiness of a value: undefined, null, false, 0 and the empty
string are falsy; every array and object is truthy. -/
def falsy : Json → Bool
  | .undefined => true
  | .null => true
  | .bool b => !b
  | .num n => n == 0
  | .str s => s.isEmpty
  | .arr _ => false
  | .obj _ => false

/-- Array.isArray. -/
def isArr : Json → Bool
  | .arr _ => true
  | _ => false

/-- The element list of an array value. -/
def asArr : Json → List Json
  | .arr l => l
  | _ => []

/-- JS property access data.k: the value of the field on an object that has
it, undefined otherwise. -/
def getField (j : Json) (k : Str) : Json :=
  match j with
  | .obj fs =>
      match fs.lookup k with
      | some v => v
      | none => .undefined
  | _ => .undefined

/-- The JS short-circuit a || b: the left value when truthy, else the
right one. This is the defaulting combinator of lines 145-166. -/
def jsOr (v d : Json) : Json := if falsy v then d else v

/-- The analysis record built at lines 144-167 of geminiService.ts,
fields in source order. -/
structure Analysis where
  bazi : Json
  summary : Json
  summaryScore : Json
  personality : Json
  personalityScore : Json
  industry : Json
  industryScore : Json
  fengShui : Json
  fengShuiScore : Json
  wealth : Json
  wealthScore : Json
  marriage : Json
  marriageScore : Json
  health : Json
  healthScore : Json
  family : Json
  familyScore : Json
  crypto : Json
  cryptoScore : Json
  cryptoYear : Json
  cryptoStyle : Json

/-- The validated result record (LifeDestinyResult): the chart points
plus the analysis record. -/
structure LifeDestinyResult where
  chartData : List Json
  analysis : Analysis

/-- The single hard-failure kind of the validator: the throw at line 139
("模型返回的数据格式不正确（缺失 chartPoints）"). -/
inductive VErr where
  | malformedChartPoints
deriving DecidableEq, Repr

/-- The per-field defaulting of lines 145-166: each analysis field is the
value found in the payload when truthy, else its documented default (scores default
to 5, narrative texts to fixed placeholder strings, bazi to an empty
array). -/
def mkAnalysis (data : Json) : Analysis where
  bazi := jsOr (getField data (strL "bazi")) (.arr [])
  summary := jsOr (getField data (strL "summary")) (.str (strL "无摘要"))
  summaryScore := jsOr (getField data (strL "summaryScore")) (.num 5)
  personality := jsOr (getField data (strL "personality")) (.str (strL "无性格分析"))
  personalityScore := jsOr (getField data (strL "personalityScore")) (.num 5)
  industry := jsOr (getField data (strL "industry")) (.str (strL "无"))
  industryScore := jsOr (getField data (strL "industryScore")) (.num 5)
  fengShui := jsOr (getField data (strL "fengShui")) (.str (strL "建议多亲近自然，保持心境平和。"))
  fengShuiScore := jsOr (getField data (strL "fengShuiScore")) (.num 5)
  wealth := jsOr (getField data (strL "wealth")) (.str (strL "无"))
  wealthScore := jsOr (getField data (strL "wealthScore")) (.num 5)
  marriage := jsOr (getField data (strL "marriage")) (.str (strL "无"))
  marriageScore := jsOr (getField data (strL "marriageScore")) (.num 5)
  health := jsOr (getField data (strL "health")) (.str (strL "无"))
  healthScore := jsOr (getField data (strL "healthScore")) (.num 5)
  family := jsOr (getField data (strL "family")) (.str (strL "无"))
  familyScore := jsOr (getField data (strL "familyScore")) (.num 5)
  crypto := jsOr (getField data (strL "crypto")) (.str (strL "暂无交易分析"))
  cryptoScore := jsOr (getField data (strL "cryptoScore")) (.num 5)
  cryptoYear := jsOr (getField data (strL "cryptoYear")) (.str (strL "待定"))
  cryptoStyle := jsOr (getField data (strL "cryptoStyle")) (.str (strL "现货定投"))

/-- The validation of the parsed message content, lines 138-168: throw
when chartPoints is falsy or not an array (for a parsed JSON value this
is exactly "not an array", since arrays are truthy), else build the
result record with per-field defaulting. -/
def validate (data : Json) : Except VErr LifeDestinyResult :=
  if falsy (getField data (strL "chartPoints")) ||
      !(isArr (getField data (strL "chartPoints"))) then
    .error .malformedChartPoints
  else
    .ok { chartData := asArr (getField data (strL "chartPoints")),
          analysis := mkAnalysis data }

/-- The all-defaults analysis record: every score 5, every narrative text
its fixed placeholder, bazi the empty array. -/
def defaultAnalysis : Analysis where
  bazi := .arr []
  summary := .str (strL "无摘要")
  summaryScore := .num 5
  personality := .str (strL "无性格分析")
  personalityScore := .num 5
  industry := .str (strL "无")
  industryScore := .num 5
  fengShui := .str (strL "建议多亲近自然，保持心境平和。")
  fengShuiScore := .num 5
  wealth := .str (strL "无")
  wealthScore := .num 5
  marriage := .str (strL "无")
  marriageScore := .num 5
  health := .str (strL "无")
  healthScore := .num 5
  family := .str (strL "无")
  familyScore := .num 5
  crypto := .str (strL "暂无交易分析")
  cryptoScore := .num 5
  cryptoYear := .str (strL "待定")
  cryptoStyle := .str (strL "现货定投")

theorem falsy_isArr_false (j : Json) (h : isArr j = true) : falsy j = false := by
  cases j <;> simp_all [isArr, falsy]

/-- C3. The validator hard-fails exactly when the chartPoints
field of the payload is absent or not an array (both cases are isArr = false of the
accessed value); when chartPoints is an array, validation succeeds no
matter what the other fields hold, every other field degrading to its
default instead of failing. -/
theorem validate_error_iff (j : Json) :
    validate j = .error .malformedChartPoints ↔
      isArr (getField j (strL "chartPoints")) = false := by
  unfold validate
  constructor
  · intro h
    by_contra hne
    have ha : isArr (getField j (strL "chartPoints")) = true := by
      revert hne; cases isArr (getField j (strL "chartPoints")) <;> simp
    rw [falsy_isArr_false _ ha, ha] at h
    simp at h
  · intro h
    rw [h]
    simp

/-- C4. On the payload whose only field is an empty chartPoints array,
validation succeeds and every field of the analysis record takes its
documented default: every score 5 and every narrative text its fixed
placeholder string. -/
theorem validate_empty_chartPoints :
    validate (.obj [(strL "chartPoints", .arr [])]) =
      .ok ⟨[], defaultAnalysis⟩ := rfl

/-- C9. Defaulting applies to every falsy present value, not only absent
fields: a payload that carries a numeric score field equal to 0 and a
narrative field equal to the empty string (here summaryScore and
summary, the || pattern being identical for every field of lines
145-166) yields a result in which those fields are replaced by their
defaults (5 and the placeholder text) rather than preserved. -/
theorem falsy_fields_replaced (j : Json) (l : List Json)
    (hcp : getField j (strL "chartPoints") = .arr l)
    (hsc : getField j (strL "summaryScore") = .num 0)
    (hsm : getField j (strL "summary") = .str []) :
    ∃ r, validate j = .ok r ∧ r.chartData = l ∧
      r.analysis.summaryScore = .num 5 ∧
      r.analysis.summary = .str (strL "无摘要") := by
  refine ⟨⟨l, mkAnalysis j⟩, ?_, rfl, ?_, ?_⟩
  · unfold validate
    rw [hcp]
    simp [falsy, isArr, asArr]
  · show jsOr (getField j (strL "summaryScore")) (.num 5) = .num 5
    rw [hsc]
    rfl
  · show jsOr (getField j (strL "summary")) (.str (strL "无摘要")) = .str (strL "无摘要")
    rw [hsm]
    rfl

theorem falsy_fields_replaced_witness :
    (getField (.obj [(strL "chartPoints", .arr []), (strL "summaryScore", .num 0),
        (strL "summary", .str [])]) (strL "chartPoints") = .arr [] ∧
      getField (.obj [(strL "chartPoints", .arr []), (strL "summaryScore", .num 0),
        (strL "summary", .str [])]) (strL "summaryScore") = .num 0 ∧
      getField (.obj [(strL "chartPoints", .arr []), (strL "summaryScore", .num 0),
        (strL "summary", .str [])]) (strL "summary") = .str []) ∧
    (∃ r, validate (.obj [(strL "chartPoints", .arr []), (strL "summaryScore", .num 0),
        (strL "summary", .str [])]) = .ok r ∧ r.chartData = [] ∧
      r.analysis.summaryScore = .num 5 ∧
      r.analysis.summary = .str (strL "无摘要")) :=
  ⟨⟨rfl, rfl, rfl⟩,
   falsy_fields_replaced
     (.obj [(strL "chartPoints", .arr []), (strL "summaryScore", .num 0),
       (strL "summary", .str [])]) [] rfl rfl rfl⟩

end Lifekline
